import Mathlib

/-!
Verification development for the GridSense streaming engine
(server/services/pathway).  Python floats are modelled as exact rationals
(ℚ); Python strings as Lean `String`.  Each definition is a shallow
embedding of the correspondingly named function of the source.
-/

namespace GridSense

/-- One observation of one device at one instant; mirrors the fields of
`DeviceSchema` in processor.py. -/
structure DeviceRow where
  device_id : String
  device_type : String
  status : String
  voltage : ℚ
  current : ℚ
  power : ℚ
  timestamp : ℚ
deriving DecidableEq, Repr

/-- One snapshot of grid-wide context; mirrors `GridSchema` in processor.py. -/
structure GridRow where
  carbon_intensity : ℚ
  carbon_level : String
  electricity_price : ℚ
  pricing_tier : String
  renewable_pct : ℚ
  timestamp : ℚ
deriving DecidableEq, Repr

/-- Embeds `PathwayConfig.HIGH_CURRENT_THRESHOLD` from config.py (100.0 A). -/
def HIGH_CURRENT_THRESHOLD : ℚ := 100

/-- The alert messages produced by `get_anomaly_alert` in utils.py.  The
source returns formatted strings; each constructor stands for one exact
f-string of the source and carries the numeric `current` value that the
f-string interpolates (the spec declares the exact wording a presentation
detail and the selection logic the contract). -/
inductive Alert where
  | motorInrush (current : ℚ)
  | faultDetected (current : ℚ)
  | highCurrent (current : ℚ)
  | anomaly (current : ℚ)
deriving DecidableEq, Repr

/-- The numeric current value interpolated into the alert message. -/
def Alert.currentVal : Alert → ℚ
  | .motorInrush c => c
  | .faultDetected c => c
  | .highCurrent c => c
  | .anomaly c => c

/-- Embeds `get_anomaly_alert(current, status)` from utils.py: the if/elif/else
chain selecting the alert message. -/
def get_anomaly_alert (current : ℚ) (status : String) : Alert :=
  if status = "starting" ∧ current > HIGH_CURRENT_THRESHOLD then
    .motorInrush current
  else if status = "fault" then
    .faultDetected current
  else if current > HIGH_CURRENT_THRESHOLD then
    .highCurrent current
  else
    .anomaly current

/-- The recommendation messages produced by `generate_llm_recommendation`
in utils.py.  Each constructor stands for one exact f-string of the source
and carries the numeric/identifier values interpolated into it. -/
inductive Recommendation where
  | stopDevice (electricity_price : ℚ) (device_id : String)
      (savings_per_hour : ℚ)
  | peakPricingHighCarbon (electricity_price : ℚ) (carbon_intensity : ℚ)
      (device_id : String) (savings_per_hour : ℚ) (carbon_per_hour : ℚ)
  | deferHighCarbon (carbon_intensity : ℚ) (device_id : String)
      (carbon_per_hour : ℚ)
  | optimalConditions (electricity_price : ℚ) (renewable_pct : ℚ)
      (device_id : String)
  | cleanEnergy (renewable_pct : ℚ) (device_id : String)
  | normalOperation (device_id : String) (cost_per_hour : ℚ)
      (electricity_price : ℚ)
deriving DecidableEq, Repr

/-- Embeds `generate_llm_recommendation(...)` from utils.py: the if/elif/else
rule table selecting the recommendation message. -/
def generate_llm_recommendation (device_id : String) (device_type : String)
    (power : ℚ) (current : ℚ) (carbon_intensity : ℚ) (carbon_level : String)
    (electricity_price : ℚ) (pricing_tier : String) (renewable_pct : ℚ)
    (cost_per_hour : ℚ) : Recommendation :=
  if pricing_tier = "HIGH" ∧ power > 500 then
    .stopDevice electricity_price device_id cost_per_hour
  else if pricing_tier = "HIGH" ∧ carbon_level = "HIGH" then
    .peakPricingHighCarbon electricity_price carbon_intensity device_id
      cost_per_hour (power / 1000 * carbon_intensity)
  else if carbon_level = "HIGH" ∧ power > 500 then
    .deferHighCarbon carbon_intensity device_id (power / 1000 * carbon_intensity)
  else if pricing_tier = "LOW" ∧ carbon_level = "LOW" then
    .optimalConditions electricity_price renewable_pct device_id
  else if renewable_pct > 70 then
    .cleanEnergy renewable_pct device_id
  else
    .normalOperation device_id cost_per_hour electricity_price

/-- One detected anomalous reading; mirrors the `select` in
`PathwayProcessor._detect_anomalies` (note: no `voltage` field). -/
structure AnomalyRow where
  device_id : String
  device_type : String
  current : ℚ
  power : ℚ
  status : String
  alert : Alert
  timestamp : ℚ
deriving DecidableEq, Repr

/-- The `select` applied to each device row passing the anomaly filter in
`PathwayProcessor._detect_anomalies`. -/
def toAnomalyRow (r : DeviceRow) : AnomalyRow :=
  { device_id := r.device_id
    device_type := r.device_type
    current := r.current
    power := r.power
    status := r.status
    alert := get_anomaly_alert r.current r.status
    timestamp := r.timestamp }

/-- Embeds `PathwayProcessor._detect_anomalies`: filter the device stream on
`current > HIGH_CURRENT_THRESHOLD`, then select the anomaly fields. -/
def detect_anomalies (rows : List DeviceRow) : List AnomalyRow :=
  (rows.filter (fun r => decide (r.current > HIGH_CURRENT_THRESHOLD))).map toAnomalyRow

/-- Round-half-to-even on rationals, modelling Python's `round` applied to
an exact value. -/
def roundHalfEven (q : ℚ) : ℤ :=
  if q - ⌊q⌋ < 1/2 then ⌊q⌋
  else if q - ⌊q⌋ > 1/2 then ⌊q⌋ + 1
  else if ⌊q⌋ % 2 = 0 then ⌊q⌋ else ⌊q⌋ + 1

/-- Python's `round(q, 4)` on an exact rational value. -/
def round4 (q : ℚ) : ℚ :=
  (roundHalfEven (q * 10000) : ℚ) / 10000

/-- The matching rule of `asof_join(grid_stream, device.timestamp,
grid.timestamp, how=LEFT, direction=BACKWARD)` used in
`PathwayProcessor._generate_recommendations`: each device row is matched
with the grid row of greatest timestamp that is at or before the device
row's timestamp, or with no row when every grid timestamp is later. -/
def asofStep (t : ℚ) (acc : Option GridRow) (g : GridRow) : Option GridRow :=
  match acc with
  | none => if g.timestamp ≤ t then some g else none
  | some b =>
      if g.timestamp ≤ t then
        (if b.timestamp ≤ g.timestamp then some g else some b)
      else some b

/-- See `asofStep`: fold the matching rule over the known grid rows. -/
def asofMatch (grids : List GridRow) (t : ℚ) : Option GridRow :=
  grids.foldl (asofStep t) none

/-- One enriched recommendation row; mirrors the `select` in
`PathwayProcessor._generate_recommendations`. -/
structure RecommendationRow where
  device_id : String
  device_type : String
  current : ℚ
  power : ℚ
  carbon_intensity : ℚ
  carbon_level : String
  pricing_tier : String
  renewable_pct : ℚ
  electricity_price : ℚ
  cost_per_hour : ℚ
  recommendation : Recommendation
  timestamp : ℚ
deriving DecidableEq, Repr

/-- The per-device-row meaning of the joined `select` in
`PathwayProcessor._generate_recommendations`: `pw.coalesce(pw.right.f, d)`
falls back to the default `d` when the left asof join found no grid row. -/
def enrich (grids : List GridRow) (dev : DeviceRow) : RecommendationRow :=
  let m := asofMatch grids dev.timestamp
  let ci : ℚ := match m with | some g => g.carbon_intensity | none => 500
  let cl : String := match m with | some g => g.carbon_level | none => "MEDIUM"
  let pt : String := match m with | some g => g.pricing_tier | none => "MEDIUM"
  let rp : ℚ := match m with | some g => g.renewable_pct | none => 35
  let price : ℚ := match m with | some g => g.electricity_price | none => 0.15
  let cph : ℚ := round4 (dev.power / 1000 * price)
  { device_id := dev.device_id
    device_type := dev.device_type
    current := dev.current
    power := dev.power
    carbon_intensity := ci
    carbon_level := cl
    pricing_tier := pt
    renewable_pct := rp
    electricity_price := price
    cost_per_hour := cph
    recommendation := generate_llm_recommendation dev.device_id dev.device_type
      dev.power dev.current ci cl price pt rp cph
    timestamp := dev.timestamp }

/-- Embeds `PathwayProcessor._generate_recommendations` over whole streams: one
output row per device row, each enriched against the grid stream. -/
def generate_recommendations (devices : List DeviceRow) (grids : List GridRow) :
    List RecommendationRow :=
  devices.map (enrich grids)

/-- Running sums held by the incremental `reduce` for one `device_type`
group: sample count, sum of current, sum of power, running maximum of
current (what `pw.reducers.avg/max/count` maintain per group). -/
structure SumState where
  count : ℕ
  sum_current : ℚ
  sum_power : ℚ
  max_current : ℚ
deriving DecidableEq, Repr

/-- One aggregated statistics row; mirrors the `reduce` in
`PathwayProcessor._compute_statistics`. -/
structure AggregateRow where
  device_type : String
  avg_current : ℚ
  max_current : ℚ
  avg_power : ℚ
  total_samples : ℕ
deriving DecidableEq, Repr

/-- The visible AggregateRow for a group, computed from its running sums:
`avg = sum / count` (the avg reducer), `max` the running maximum, `count`
the sample count. -/
def aggOf (t : String) (s : SumState) : AggregateRow :=
  { device_type := t
    avg_current := s.sum_current / (s.count : ℚ)
    max_current := s.max_current
    avg_power := s.sum_power / (s.count : ℚ)
    total_samples := s.count }

/-- Incremental update of one group's running sums by one device row
(initialization on the group's first row). -/
def ingestGroup (s : Option SumState) (r : DeviceRow) : SumState :=
  match s with
  | none =>
      { count := 1, sum_current := r.current, sum_power := r.power
        max_current := r.current }
  | some s =>
      { count := s.count + 1
        sum_current := s.sum_current + r.current
        sum_power := s.sum_power + r.power
        max_current := max s.max_current r.current }

/-- The full grouped state of `_compute_statistics`: running sums per
`device_type`, `none` for a type not yet seen. -/
def StatsState : Type := String → Option SumState

/-- State transition of the grouped reduce on one device row. -/
def ingestState (σ : StatsState) (r : DeviceRow) : StatsState :=
  fun t => if t = r.device_type then some (ingestGroup (σ r.device_type) r) else σ t

/-- One record of the `device_stats` jsonlines changelog: an AggregateRow
plus the Pathway `diff` field (+1 insertion, -1 retraction). -/
structure StatsEntry where
  row : AggregateRow
  diff : ℤ
deriving DecidableEq, Repr

/-- Changelog records emitted when one device row updates its group, per
Pathway's documented output semantics for an updated `reduce` result
(written by `pw.io.jsonlines.write(device_stats, ...)`): the first row of
a group is insertion-only; afterwards the superseded row is retracted
(diff = -1) and the new row inserted (diff = +1). -/
def ingestLog (σ : StatsState) (r : DeviceRow) : List StatsEntry :=
  match σ r.device_type with
  | none => [⟨aggOf r.device_type (ingestGroup none r), 1⟩]
  | some s => [⟨aggOf r.device_type s, -1⟩,
               ⟨aggOf r.device_type (ingestGroup (some s) r), 1⟩]

/-- Run the grouped reduce over a device stream from a given state,
returning the final state and the emitted changelog. -/
def runStatsAux (σ : StatsState) : List DeviceRow → StatsState × List StatsEntry
  | [] => (σ, [])
  | r :: rs =>
      let rest := runStatsAux (ingestState σ r) rs
      (rest.1, ingestLog σ r ++ rest.2)

/-- Embeds `PathwayProcessor._compute_statistics` over a device stream, starting
from the empty grouped state. -/
def device_stats (rows : List DeviceRow) : StatsState × List StatsEntry :=
  runStatsAux (fun _ => none) rows

/-- Cumulative diff of one row value in a changelog (the §3 replay rule:
a row is live iff its cumulative diff is positive). -/
def cumDiff (log : List StatsEntry) (a : AggregateRow) : ℤ :=
  ((log.filter (fun e => decide (e.row = a))).map (fun e => e.diff)).sum

/-- One per-device telemetry mapping value of the internal-stream payload.
The generator reads exactly the keys `device_type`, `status`, `voltage`,
`current`, `power`; `none` models a key that is missing or whose value the
`str`/`float` coercion rejects (raising inside the loop).  `extra_timestamp`
models a per-entry `timestamp` key that may be present in the payload; the
generator never reads it. -/
structure TelemetryEntry where
  device_type : Option String
  status : Option String
  voltage : Option ℚ
  current : Option ℚ
  power : Option ℚ
  extra_timestamp : Option ℚ
deriving DecidableEq, Repr

/-- One fetched internal-stream snapshot: `data.get('timestamp', ...)`
(`none` = key absent, so the wall-clock fallback is used) and the
`data.get('devices', {})` mapping in iteration order. -/
structure Snapshot where
  timestamp : Option ℚ
  devices : List (String × TelemetryEntry)
deriving DecidableEq, Repr

/-- The body of the per-device loop in `internal_stream_generator`: coerce
the five read fields and attach the snapshot timestamp; `none` when any
required field is missing or non-coercible (the raised exception). -/
def coerceEntry (device_id : String) (ts : ℚ) (e : TelemetryEntry) :
    Option DeviceRow :=
  match e.device_type, e.status, e.voltage, e.current, e.power with
  | some dt, some st, some v, some c, some p =>
      some { device_id := device_id, device_type := dt, status := st
             voltage := v, current := c, power := p, timestamp := ts }
  | _, _, _, _, _ => none

/-- The per-device loop of `internal_stream_generator`: rows are yielded
one by one; the exception raised by a failing entry is caught by the
enclosing try, so it ends the poll — entries before the failing one were
already yielded, the failing entry and everything after it are dropped. -/
def emitEntries (ts : ℚ) : List (String × TelemetryEntry) → List DeviceRow
  | [] => []
  | (id, e) :: rest =>
      match coerceEntry id ts e with
      | some row => row :: emitEntries ts rest
      | none => []

/-- One iteration of `internal_stream_generator`'s `while True` loop:
`now` is the `time.time()` fallback for a snapshot without a `timestamp`
key; a failed fetch (network error, timeout, non-success status, malformed
payload — `Except.error`) is caught and yields nothing. -/
def pollDeviceRows (now : ℚ) (res : Except Unit Snapshot) : List DeviceRow :=
  match res with
  | .error _ => []
  | .ok snap => emitEntries (snap.timestamp.getD now) snap.devices

/-- Embeds `internal_stream_generator` over a sequence of poll outcomes (each
with its wall clock): the rows yielded, in order. -/
def internal_stream (polls : List (ℚ × Except Unit Snapshot)) : List DeviceRow :=
  polls.flatMap (fun p => pollDeviceRows p.1 p.2)

/-- One fetched external-stream payload; `none` models a required key that
is missing or non-coercible. -/
structure GridPayload where
  carbon_intensity : Option ℚ
  carbon_level : Option String
  electricity_price : Option ℚ
  pricing_tier : Option String
  grid_renewable_percentage : Option ℚ
  last_updated : Option ℚ
deriving DecidableEq, Repr

/-- One iteration of `external_stream_generator`'s loop: a failed fetch or
a failed field coercion is caught and yields nothing; otherwise exactly
one GridRow is yielded. -/
def pollGridRows (res : Except Unit GridPayload) : List GridRow :=
  match res with
  | .error _ => []
  | .ok p =>
      match p.carbon_intensity, p.carbon_level, p.electricity_price,
          p.pricing_tier, p.grid_renewable_percentage, p.last_updated with
      | some ci, some cl, some ep, some pt, some rp, some lu =>
          [{ carbon_intensity := ci, carbon_level := cl
             electricity_price := ep, pricing_tier := pt
             renewable_pct := rp, timestamp := lu }]
      | _, _, _, _, _, _ => []

/-- Embeds `external_stream_generator` over a sequence of poll outcomes. -/
def external_stream (polls : List (Except Unit GridPayload)) : List GridRow :=
  polls.flatMap pollGridRows

/-- The device rows of one `device_type` within a stream (the group that
`groupby(pw.this.device_type)` reduces over). -/
def typeRows (rows : List DeviceRow) (t : String) : List DeviceRow :=
  rows.filter (fun r => decide (r.device_type = t))

/-- Running sums accumulated over a list of device rows from a given
starting state (proof plumbing for the aggregation lemmas). -/
def sumsFrom (s : SumState) (l : List DeviceRow) : SumState :=
  l.foldl (fun a r => ingestGroup (some a) r) s

/-- Whether a given AggregateRow is the one live row its group's state
currently exhibits: 1 if so, 0 otherwise (proof plumbing linking the
changelog replay to the grouped state). -/
def liveInd (σ : StatsState) (a : AggregateRow) : ℤ :=
  match σ a.device_type with
  | some s => if a = aggOf a.device_type s then 1 else 0
  | none => 0

/-! Concrete fixtures for witnesses and counterexamples. -/

/-- Grid snapshot at t = 10 (scenario fixture). -/
def g10 : GridRow :=
  { carbon_intensity := 300, carbon_level := "LOW", electricity_price := 1/10
    pricing_tier := "LOW", renewable_pct := 50, timestamp := 10 }

/-- Grid snapshot at t = 20 (scenario fixture). -/
def g20 : GridRow :=
  { carbon_intensity := 700, carbon_level := "HIGH", electricity_price := 3/10
    pricing_tier := "HIGH", renewable_pct := 20, timestamp := 20 }

/-- Device row at t = 15 with power 800 (scenario fixture). -/
def d15 : DeviceRow :=
  { device_id := "dev1", device_type := "hvac", status := "running"
    voltage := 230, current := 4, power := 800, timestamp := 15 }

/-- Device row whose current exceeds the threshold (fixture). -/
def dHigh : DeviceRow :=
  { device_id := "dev2", device_type := "pump", status := "running"
    voltage := 230, current := 150, power := 900, timestamp := 16 }

/-- Second device row of type "hvac" (fixture for aggregation claims). -/
def dh2 : DeviceRow :=
  { device_id := "dev3", device_type := "hvac", status := "running"
    voltage := 231, current := 6, power := 1000, timestamp := 17 }

/-- Fully coercible telemetry entry (fixture). -/
def goodEntry : TelemetryEntry :=
  { device_type := some "hvac", status := some "running"
    voltage := some 230, current := some 4, power := some 800
    extra_timestamp := none }

/-- Telemetry entry with a missing `current` field (fixture). -/
def badEntry : TelemetryEntry :=
  { device_type := some "pump", status := some "running"
    voltage := some 230, current := none, power := some 500
    extra_timestamp := none }

/-- Fully coercible telemetry entry carrying its own per-entry timestamp,
which the generator never reads (fixture). -/
def ownTsEntry : TelemetryEntry :=
  { device_type := some "hvac", status := some "running"
    voltage := some 230, current := some 4, power := some 800
    extra_timestamp := some 99 }

/-- Snapshot at t = 5 whose second entry fails coercion (fixture). -/
def snapMixed : Snapshot :=
  { timestamp := some 5, devices := [("d1", goodEntry), ("d2", badEntry)] }

/-- Snapshot at t = 5 with one entry carrying its own timestamp 99
(fixture). -/
def snapOwnTs : Snapshot :=
  { timestamp := some 5, devices := [("d1", ownTsEntry)] }

end GridSense

namespace GridSense

/-- Rounding an exact integer value changes nothing. -/
theorem roundHalfEven_intCast (n : ℤ) : roundHalfEven (n : ℚ) = n := by
  unfold roundHalfEven
  rw [Int.floor_intCast]
  norm_num

/-- The matching step returns none only when it started from none and the
candidate's timestamp is too late. -/
theorem asofStep_eq_none (t : ℚ) (acc : Option GridRow) (g : GridRow) :
    asofStep t acc g = none ↔ acc = none ∧ ¬g.timestamp ≤ t := by
  cases acc <;> simp only [asofStep] <;> split_ifs <;> simp_all

/-- A row returned by the matching step is the candidate (with timestamp in
range) or the previous accumulator. -/
theorem asofStep_eq_some (t : ℚ) (acc : Option GridRow) (g0 b : GridRow)
    (h : asofStep t acc g0 = some b) :
    (b = g0 ∧ g0.timestamp ≤ t) ∨ acc = some b := by
  cases acc <;> simp only [asofStep] at h <;> split_ifs at h <;> simp_all

/-- An in-range candidate never makes the accumulator's timestamp smaller. -/
theorem asofStep_cand_le (t : ℚ) (acc : Option GridRow) (g0 b : GridRow)
    (hg : g0.timestamp ≤ t) (h : asofStep t acc g0 = some b) :
    g0.timestamp ≤ b.timestamp := by
  cases acc with
  | none =>
      simp only [asofStep] at h
      rw [if_pos hg] at h
      cases h
      exact le_refl _
  | some b0 =>
      simp only [asofStep] at h
      rw [if_pos hg] at h
      by_cases hb : b0.timestamp ≤ g0.timestamp
      · rw [if_pos hb] at h; cases h; exact le_refl _
      · rw [if_neg hb] at h; cases h; exact le_of_lt (lt_of_not_le hb)

/-- The matching step never decreases the accumulator's timestamp. -/
theorem asofStep_acc_le (t : ℚ) (b0 g0 b : GridRow)
    (h : asofStep t (some b0) g0 = some b) :
    b0.timestamp ≤ b.timestamp := by
  simp only [asofStep] at h
  by_cases hg : g0.timestamp ≤ t
  · rw [if_pos hg] at h
    by_cases hb : b0.timestamp ≤ g0.timestamp
    · rw [if_pos hb] at h; cases h; exact hb
    · rw [if_neg hb] at h; cases h; exact le_refl _
  · rw [if_neg hg] at h; cases h; exact le_refl _

/-- The matching step preserves the in-range property of the accumulator. -/
theorem asofStep_le_t (t : ℚ) (acc : Option GridRow) (g0 b : GridRow)
    (hacc : ∀ b0, acc = some b0 → b0.timestamp ≤ t)
    (h : asofStep t acc g0 = some b) : b.timestamp ≤ t := by
  cases acc with
  | none =>
      simp only [asofStep] at h
      by_cases hg : g0.timestamp ≤ t
      · rw [if_pos hg] at h; cases h; exact hg
      · rw [if_neg hg] at h; cases h
  | some b0 =>
      simp only [asofStep] at h
      by_cases hg : g0.timestamp ≤ t
      · rw [if_pos hg] at h
        by_cases hb : b0.timestamp ≤ g0.timestamp
        · rw [if_pos hb] at h; cases h; exact hg
        · rw [if_neg hb] at h; cases h; exact hacc _ rfl
      · rw [if_neg hg] at h; cases h; exact hacc _ rfl

/-- Characterization of folding the matching rule from any in-range
accumulator: a `none` result means nothing was in range; a `some` result
is an in-range row from the list or the accumulator, and its timestamp
dominates every in-range row of the list and the accumulator. -/
theorem asofFold_spec (t : ℚ) (l : List GridRow) :
    ∀ acc : Option GridRow, (∀ b, acc = some b → b.timestamp ≤ t) →
      (l.foldl (asofStep t) acc = none →
          acc = none ∧ ∀ g ∈ l, ¬g.timestamp ≤ t) ∧
      (∀ g, l.foldl (asofStep t) acc = some g →
          g.timestamp ≤ t ∧ (g ∈ l ∨ acc = some g) ∧
          (∀ g' ∈ l, g'.timestamp ≤ t → g'.timestamp ≤ g.timestamp) ∧
          (∀ b, acc = some b → b.timestamp ≤ g.timestamp)) := by
  induction l with
  | nil =>
      intro acc hacc
      constructor
      · intro h
        simp only [List.foldl_nil] at h
        exact ⟨h, by simp⟩
      · intro g hg
        simp only [List.foldl_nil] at hg
        refine ⟨hacc g hg, Or.inr hg, by simp, fun b hb => ?_⟩
        rw [hb] at hg
        cases hg
        exact le_refl _
  | cons g0 l ih =>
      intro acc hacc
      have hacc' : ∀ b, asofStep t acc g0 = some b → b.timestamp ≤ t :=
        fun b hb => asofStep_le_t t acc g0 b hacc hb
      have hihl := ih (asofStep t acc g0) hacc'
      constructor
      · intro h
        rw [List.foldl_cons] at h
        obtain ⟨hstep, hrest⟩ := hihl.1 h
        obtain ⟨haccn, hg0⟩ := (asofStep_eq_none t acc g0).1 hstep
        refine ⟨haccn, fun g hg => ?_⟩
        rcases List.mem_cons.mp hg with hm | hm
        · exact hm ▸ hg0
        · exact hrest g hm
      · intro g hg
        rw [List.foldl_cons] at hg
        obtain ⟨hle, hmem, hmax, haccle⟩ := hihl.2 g hg
        refine ⟨hle, ?_, ?_, ?_⟩
        · rcases hmem with hm | hm
          · exact Or.inl (List.mem_cons_of_mem g0 hm)
          · rcases asofStep_eq_some t acc g0 g hm with ⟨he, _⟩ | he
            · exact Or.inl (he ▸ List.mem_cons_self g0 l)
            · exact Or.inr he
        · intro g' hg' hg'le
          rcases List.mem_cons.mp hg' with hm | hm
          · subst hm
            cases hstep : asofStep t acc g' with
            | none =>
                exact absurd ((asofStep_eq_none t acc g').1 hstep).2
                  (not_not.mpr hg'le)
            | some b1 =>
                exact le_trans (asofStep_cand_le t acc g' b1 hg'le hstep)
                  (haccle b1 hstep)
          · exact hmax g' hm hg'le
        · intro b hb
          subst hb
          cases hstep : asofStep t (some b) g0 with
          | none =>
              exact absurd hstep (by
                rw [asofStep_eq_none]
                simp)
          | some b1 =>
              exact le_trans (asofStep_acc_le t b g0 b1 hstep) (haccle b1 hstep)

/-- The backward matching rule of the asof join: a `none` result means no
grid row is at or before `t`; a `some g` result is a known grid row at or
before `t` whose timestamp dominates every known grid row at or before
`t`. -/
theorem asofMatch_spec (grids : List GridRow) (t : ℚ) :
    (asofMatch grids t = none → ∀ g ∈ grids, ¬g.timestamp ≤ t) ∧
    (∀ g, asofMatch grids t = some g →
       g ∈ grids ∧ g.timestamp ≤ t ∧
       ∀ g' ∈ grids, g'.timestamp ≤ t → g'.timestamp ≤ g.timestamp) := by
  have h := asofFold_spec t grids none (fun b hb => by cases hb)
  refine ⟨fun hn => (h.1 hn).2, fun g hg => ?_⟩
  obtain ⟨hle, hmem, hmax, _⟩ := h.2 g hg
  rcases hmem with hm | hm
  · exact ⟨hm, hle, hmax⟩
  · cases hm

/-- C3: the alert text is selected by first-match priority:
(1) status = "starting" and current > threshold gives motor-inrush;
(2) otherwise status = "fault" gives the fault alert regardless of current;
(3) otherwise current > threshold gives the high-current alert;
(4) otherwise the generic anomaly alert; in particular status = "starting"
with current = 120 gets the motor-inrush alert, not the high-current one. -/
theorem anomaly_alert_first_match (c : ℚ) (s : String) :
    (s = "starting" ∧ c > HIGH_CURRENT_THRESHOLD →
      get_anomaly_alert c s = .motorInrush c) ∧
    (¬(s = "starting" ∧ c > HIGH_CURRENT_THRESHOLD) → s = "fault" →
      get_anomaly_alert c s = .faultDetected c) ∧
    (¬(s = "starting" ∧ c > HIGH_CURRENT_THRESHOLD) → ¬s = "fault" →
      c > HIGH_CURRENT_THRESHOLD → get_anomaly_alert c s = .highCurrent c) ∧
    (¬(s = "starting" ∧ c > HIGH_CURRENT_THRESHOLD) → ¬s = "fault" →
      ¬c > HIGH_CURRENT_THRESHOLD → get_anomaly_alert c s = .anomaly c) ∧
    get_anomaly_alert 120 "starting" = .motorInrush 120 := by
  unfold get_anomaly_alert
  refine ⟨fun h1 => ?_, fun h1 h2 => ?_, fun h1 h2 h3 => ?_,
    fun h1 h2 h3 => ?_, by decide⟩
  · rw [if_pos h1]
  · rw [if_neg h1, if_pos h2]
  · rw [if_neg h1, if_neg h2, if_pos h3]
  · rw [if_neg h1, if_neg h2, if_neg h3]

/-- Witness for `anomaly_alert_first_match`: a faulted row at 120 A gets
the fault alert through priority rule (2). -/
theorem anomaly_alert_first_match_witness :
    get_anomaly_alert 120 "fault" = .faultDetected 120 :=
  (anomaly_alert_first_match 120 "fault").2.1 (by decide) rfl

/-- C4: the recommendation text is selected by first-match priority over
the rule table (a) HIGH tier and power > 500, (b) HIGH tier and HIGH
carbon with carbon_per_hour = power/1000 * carbon_intensity, (c) HIGH
carbon and power > 500, (d) LOW tier and LOW carbon, (e) renewable_pct >
70, (f) fallback; in particular tier HIGH, power 600, carbon HIGH matches
rule (a), not rule (b). -/
theorem recommendation_first_match (id ty : String) (power current ci : ℚ)
    (cl : String) (price : ℚ) (pt : String) (rp cph : ℚ) :
    (pt = "HIGH" ∧ power > 500 →
      generate_llm_recommendation id ty power current ci cl price pt rp cph =
        .stopDevice price id cph) ∧
    (¬(pt = "HIGH" ∧ power > 500) → pt = "HIGH" ∧ cl = "HIGH" →
      generate_llm_recommendation id ty power current ci cl price pt rp cph =
        .peakPricingHighCarbon price ci id cph (power / 1000 * ci)) ∧
    (¬(pt = "HIGH" ∧ power > 500) → ¬(pt = "HIGH" ∧ cl = "HIGH") →
      cl = "HIGH" ∧ power > 500 →
      generate_llm_recommendation id ty power current ci cl price pt rp cph =
        .deferHighCarbon ci id (power / 1000 * ci)) ∧
    (¬(pt = "HIGH" ∧ power > 500) → ¬(pt = "HIGH" ∧ cl = "HIGH") →
      ¬(cl = "HIGH" ∧ power > 500) → pt = "LOW" ∧ cl = "LOW" →
      generate_llm_recommendation id ty power current ci cl price pt rp cph =
        .optimalConditions price rp id) ∧
    (¬(pt = "HIGH" ∧ power > 500) → ¬(pt = "HIGH" ∧ cl = "HIGH") →
      ¬(cl = "HIGH" ∧ power > 500) → ¬(pt = "LOW" ∧ cl = "LOW") → rp > 70 →
      generate_llm_recommendation id ty power current ci cl price pt rp cph =
        .cleanEnergy rp id) ∧
    (¬(pt = "HIGH" ∧ power > 500) → ¬(pt = "HIGH" ∧ cl = "HIGH") →
      ¬(cl = "HIGH" ∧ power > 500) → ¬(pt = "LOW" ∧ cl = "LOW") → ¬rp > 70 →
      generate_llm_recommendation id ty power current ci cl price pt rp cph =
        .normalOperation id cph price) ∧
    generate_llm_recommendation "dev1" "hvac" 600 50 700 "HIGH" 0.3 "HIGH" 20 0.18 =
      .stopDevice 0.3 "dev1" 0.18 := by
  unfold generate_llm_recommendation
  refine ⟨fun h1 => ?_, fun h1 h2 => ?_, fun h1 h2 h3 => ?_,
    fun h1 h2 h3 h4 => ?_, fun h1 h2 h3 h4 h5 => ?_,
    fun h1 h2 h3 h4 h5 => ?_, by rw [if_pos ⟨rfl, by norm_num⟩]⟩
  · rw [if_pos h1]
  · rw [if_neg h1, if_pos h2]
  · rw [if_neg h1, if_neg h2, if_pos h3]
  · rw [if_neg h1, if_neg h2, if_neg h3, if_pos h4]
  · rw [if_neg h1, if_neg h2, if_neg h3, if_neg h4, if_pos h5]
  · rw [if_neg h1, if_neg h2, if_neg h3, if_neg h4, if_neg h5]

/-- Witness for `recommendation_first_match`: HIGH tier at power 400 with
HIGH carbon falls through rule (a) into the combined rule (b), carrying
carbon_per_hour = 400/1000 * 650. -/
theorem recommendation_first_match_witness :
    generate_llm_recommendation "d" "t" 400 5 650 "HIGH" 0.3 "HIGH" 20 0.12 =
      .peakPricingHighCarbon 0.3 650 "d" 0.12 (400 / 1000 * 650) :=
  (recommendation_first_match "d" "t" 400 5 650 "HIGH" 0.3 "HIGH" 20 0.12).2.1
    (by decide) (by decide)

/-- C10: under the anomaly-filter precondition current > threshold, the
alert is always motor-inrush, fault, or high-current — never the generic
fallback — and it embeds the numeric current value. -/
theorem anomaly_alert_no_generic (c : ℚ) (s : String)
    (h : c > HIGH_CURRENT_THRESHOLD) :
    (get_anomaly_alert c s = .motorInrush c ∨
     get_anomaly_alert c s = .faultDetected c ∨
     get_anomaly_alert c s = .highCurrent c) ∧
    (get_anomaly_alert c s).currentVal = c := by
  unfold get_anomaly_alert
  by_cases h1 : s = "starting" ∧ c > HIGH_CURRENT_THRESHOLD
  · rw [if_pos h1]; exact ⟨Or.inl rfl, rfl⟩
  · rw [if_neg h1]
    by_cases h2 : s = "fault"
    · rw [if_pos h2]; exact ⟨Or.inr (Or.inl rfl), rfl⟩
    · rw [if_neg h2, if_pos h]; exact ⟨Or.inr (Or.inr rfl), rfl⟩

/-- Witness for `anomaly_alert_no_generic` at current 120, status
"running": the high-current alert is selected. -/
theorem anomaly_alert_no_generic_witness :
    (get_anomaly_alert 120 "running" = .motorInrush 120 ∨
     get_anomaly_alert 120 "running" = .faultDetected 120 ∨
     get_anomaly_alert 120 "running" = .highCurrent 120) ∧
    (get_anomaly_alert 120 "running").currentVal = 120 :=
  anomaly_alert_no_generic 120 "running" (by decide)

/-- C1 counterexample: with grid snapshots at t = 10 and t = 20 and a
device row at t = 15, the enrichment join uses the t = 10 snapshot
(carbon_intensity 300), not the newer t = 20 snapshot (carbon_intensity
700) that the claim says it joins against. -/
theorem enrichment_join_not_latest :
    (enrich [g10, g20] d15).carbon_intensity = g10.carbon_intensity ∧
    (enrich [g10, g20] d15).carbon_intensity ≠ g20.carbon_intensity := by
  constructor
  · rfl
  · intro h
    have h300 : (enrich [g10, g20] d15).carbon_intensity = 300 := rfl
    rw [h300] at h
    norm_num [g20] at h

/-- C1 (amended): every DeviceRow is joined against the most recent known
GridRow whose timestamp is at or before the device row's timestamp
(strict backward as-of semantics); when every known GridRow is newer than
the device row, no grid row is matched and the default grid values are
used.  Given GridRow at t = 10 then GridRow at t = 20, a DeviceRow at
t = 15 joins against the t = 10 GridRow. -/
theorem enrichment_join_backward (grids : List GridRow) (d : DeviceRow) :
    (∀ g, asofMatch grids d.timestamp = some g →
       g ∈ grids ∧ g.timestamp ≤ d.timestamp ∧
       (∀ g' ∈ grids, g'.timestamp ≤ d.timestamp →
          g'.timestamp ≤ g.timestamp) ∧
       (enrich grids d).carbon_intensity = g.carbon_intensity ∧
       (enrich grids d).carbon_level = g.carbon_level ∧
       (enrich grids d).pricing_tier = g.pricing_tier ∧
       (enrich grids d).renewable_pct = g.renewable_pct ∧
       (enrich grids d).electricity_price = g.electricity_price) ∧
    (asofMatch grids d.timestamp = none →
       (∀ g' ∈ grids, ¬g'.timestamp ≤ d.timestamp) ∧
       (enrich grids d).carbon_intensity = 500 ∧
       (enrich grids d).carbon_level = "MEDIUM" ∧
       (enrich grids d).pricing_tier = "MEDIUM" ∧
       (enrich grids d).renewable_pct = 35 ∧
       (enrich grids d).electricity_price = 0.15) ∧
    (enrich [g10, g20] d15).carbon_intensity = g10.carbon_intensity := by
  have hspec := asofMatch_spec grids d.timestamp
  refine ⟨fun g hg => ?_, fun hn => ?_, rfl⟩
  · obtain ⟨hmem, hle, hmax⟩ := hspec.2 g hg
    have hci : (enrich grids d).carbon_intensity =
        (match asofMatch grids d.timestamp with
         | some g => g.carbon_intensity | none => 500) := rfl
    have hcl : (enrich grids d).carbon_level =
        (match asofMatch grids d.timestamp with
         | some g => g.carbon_level | none => "MEDIUM") := rfl
    have hpt : (enrich grids d).pricing_tier =
        (match asofMatch grids d.timestamp with
         | some g => g.pricing_tier | none => "MEDIUM") := rfl
    have hrp : (enrich grids d).renewable_pct =
        (match asofMatch grids d.timestamp with
         | some g => g.renewable_pct | none => 35) := rfl
    have hep : (enrich grids d).electricity_price =
        (match asofMatch grids d.timestamp with
         | some g => g.electricity_price | none => 0.15) := rfl
    rw [hg] at hci hcl hpt hrp hep
    exact ⟨hmem, hle, hmax, hci, hcl, hpt, hrp, hep⟩
  · have hci : (enrich grids d).carbon_intensity =
        (match asofMatch grids d.timestamp with
         | some g => g.carbon_intensity | none => 500) := rfl
    have hcl : (enrich grids d).carbon_level =
        (match asofMatch grids d.timestamp with
         | some g => g.carbon_level | none => "MEDIUM") := rfl
    have hpt : (enrich grids d).pricing_tier =
        (match asofMatch grids d.timestamp with
         | some g => g.pricing_tier | none => "MEDIUM") := rfl
    have hrp : (enrich grids d).renewable_pct =
        (match asofMatch grids d.timestamp with
         | some g => g.renewable_pct | none => 35) := rfl
    have hep : (enrich grids d).electricity_price =
        (match asofMatch grids d.timestamp with
         | some g => g.electricity_price | none => 0.15) := rfl
    rw [hn] at hci hcl hpt hrp hep
    exact ⟨hspec.1 hn, hci, hcl, hpt, hrp, hep⟩

/-- Witness for `enrichment_join_backward`: in the two-snapshot scenario
the matched row is the t = 10 snapshot, it is at or before t = 15, and its
fields are the ones copied into the enriched row. -/
theorem enrichment_join_backward_witness :
    g10 ∈ [g10, g20] ∧ g10.timestamp ≤ d15.timestamp ∧
    (∀ g' ∈ [g10, g20], g'.timestamp ≤ d15.timestamp →
       g'.timestamp ≤ g10.timestamp) ∧
    (enrich [g10, g20] d15).carbon_intensity = g10.carbon_intensity ∧
    (enrich [g10, g20] d15).carbon_level = g10.carbon_level ∧
    (enrich [g10, g20] d15).pricing_tier = g10.pricing_tier ∧
    (enrich [g10, g20] d15).renewable_pct = g10.renewable_pct ∧
    (enrich [g10, g20] d15).electricity_price = g10.electricity_price :=
  (enrichment_join_backward [g10, g20] d15).1 g10 rfl

/-- C6: a device row's anomaly image is in the detector's output iff its
current strictly exceeds HIGH_CURRENT_THRESHOLD; in particular the
predicate is monotonic in current: a row over the threshold is emitted and
a row at or under it is not, all else equal. -/
theorem detect_anomalies_iff (rows : List DeviceRow) (r : DeviceRow)
    (h : r ∈ rows) :
    toAnomalyRow r ∈ detect_anomalies rows ↔
      r.current > HIGH_CURRENT_THRESHOLD := by
  unfold detect_anomalies
  simp only [List.mem_map, List.mem_filter, decide_eq_true_eq]
  constructor
  · rintro ⟨r', ⟨_, hc⟩, he⟩
    have hcur : r'.current = r.current := congrArg AnomalyRow.current he
    exact hcur ▸ hc
  · intro hc
    exact ⟨r, ⟨h, hc⟩, rfl⟩

/-- Witness for `detect_anomalies_iff`: over the stream [d15, dHigh], the
150 A row is emitted and the 4 A row is not. -/
theorem detect_anomalies_iff_witness :
    (toAnomalyRow dHigh ∈ detect_anomalies [d15, dHigh] ↔
       dHigh.current > HIGH_CURRENT_THRESHOLD) ∧
    (toAnomalyRow d15 ∈ detect_anomalies [d15, dHigh] ↔
       d15.current > HIGH_CURRENT_THRESHOLD) :=
  ⟨detect_anomalies_iff [d15, dHigh] dHigh (by decide),
   detect_anomalies_iff [d15, dHigh] d15 (by decide)⟩

/-- The grouped state at key `t` is obtained by folding the group update
over exactly the rows of type `t`. -/
theorem runStatsAux_state (rows : List DeviceRow) :
    ∀ (σ : StatsState) (t : String),
      (runStatsAux σ rows).1 t =
        (typeRows rows t).foldl (fun os r => some (ingestGroup os r)) (σ t) := by
  induction rows with
  | nil => intro σ t; rfl
  | cons r rs ih =>
      intro σ t
      show (runStatsAux (ingestState σ r) rs).1 t = _
      rw [ih]
      simp only [typeRows]
      by_cases hd : r.device_type = t
      · rw [List.filter_cons_of_pos (by simp [hd]), List.foldl_cons]
        have h1 : ingestState σ r t = some (ingestGroup (σ t) r) := by
          show (if t = r.device_type then some (ingestGroup (σ r.device_type) r)
            else σ t) = some (ingestGroup (σ t) r)
          rw [if_pos hd.symm, hd]
        rw [h1]
      · rw [List.filter_cons_of_neg (by simp [hd])]
        have h1 : ingestState σ r t = σ t := by
          show (if t = r.device_type then some (ingestGroup (σ r.device_type) r)
            else σ t) = σ t
          rw [if_neg (fun h => hd h.symm)]
        rw [h1]

/-- Folding the Option-level group update from a `some` state is folding
the plain update inside `some`. -/
theorem foldl_ingestGroup_some (l : List DeviceRow) :
    ∀ s : SumState,
      l.foldl (fun os r => some (ingestGroup os r)) (some s) =
        some (sumsFrom s l) := by
  induction l with
  | nil => intro s; rfl
  | cons r rs ih =>
      intro s
      rw [List.foldl_cons]
      exact ih (ingestGroup (some s) r)

/-- Sample count accumulated by the running sums. -/
theorem sumsFrom_count (l : List DeviceRow) :
    ∀ s : SumState, (sumsFrom s l).count = s.count + l.length := by
  induction l with
  | nil => intro s; rfl
  | cons r rs ih =>
      intro s
      show (sumsFrom (ingestGroup (some s) r) rs).count = _
      rw [ih]
      show s.count + 1 + rs.length = s.count + (rs.length + 1)
      omega

/-- Sum of currents accumulated by the running sums. -/
theorem sumsFrom_sum_current (l : List DeviceRow) :
    ∀ s : SumState,
      (sumsFrom s l).sum_current =
        s.sum_current + (l.map (fun r => r.current)).sum := by
  induction l with
  | nil => intro s; simp [sumsFrom]
  | cons r rs ih =>
      intro s
      show (sumsFrom (ingestGroup (some s) r) rs).sum_current = _
      rw [ih]
      show s.sum_current + r.current + (rs.map (fun r => r.current)).sum = _
      rw [List.map_cons, List.sum_cons]
      ring

/-- Sum of powers accumulated by the running sums. -/
theorem sumsFrom_sum_power (l : List DeviceRow) :
    ∀ s : SumState,
      (sumsFrom s l).sum_power =
        s.sum_power + (l.map (fun r => r.power)).sum := by
  induction l with
  | nil => intro s; simp [sumsFrom]
  | cons r rs ih =>
      intro s
      show (sumsFrom (ingestGroup (some s) r) rs).sum_power = _
      rw [ih]
      show s.sum_power + r.power + (rs.map (fun r => r.power)).sum = _
      rw [List.map_cons, List.sum_cons]
      ring

/-- The running maximum never decreases. -/
theorem sumsFrom_max_init (l : List DeviceRow) :
    ∀ s : SumState, s.max_current ≤ (sumsFrom s l).max_current := by
  induction l with
  | nil => intro s; exact le_refl _
  | cons r rs ih =>
      intro s
      refine le_trans ?_ (ih (ingestGroup (some s) r))
      exact le_max_left _ _

/-- The running maximum dominates every ingested current. -/
theorem sumsFrom_max_ge (l : List DeviceRow) :
    ∀ s : SumState, ∀ r ∈ l, r.current ≤ (sumsFrom s l).max_current := by
  induction l with
  | nil => intro s r hr; cases hr
  | cons r0 rs ih =>
      intro s r hr
      rcases List.mem_cons.mp hr with hm | hm
      · subst hm
        refine le_trans ?_ (sumsFrom_max_init rs (ingestGroup (some s) r))
        exact le_max_right _ _
      · exact ih (ingestGroup (some s) r0) r hm

/-- The running maximum is the initial maximum or some ingested current. -/
theorem sumsFrom_max_mem (l : List DeviceRow) :
    ∀ s : SumState,
      (sumsFrom s l).max_current = s.max_current ∨
        ∃ r ∈ l, (sumsFrom s l).max_current = r.current := by
  induction l with
  | nil => intro s; exact Or.inl rfl
  | cons r0 rs ih =>
      intro s
      rcases ih (ingestGroup (some s) r0) with h | h
      · have hstep : (ingestGroup (some s) r0).max_current = s.max_current ∨
            (ingestGroup (some s) r0).max_current = r0.current :=
          max_choice s.max_current r0.current
        rcases hstep with h2 | h2
        · exact Or.inl (by rw [show sumsFrom s (r0 :: rs) =
            sumsFrom (ingestGroup (some s) r0) rs from rfl, h, h2])
        · refine Or.inr ⟨r0, List.mem_cons_self r0 rs, ?_⟩
          rw [show sumsFrom s (r0 :: rs) =
            sumsFrom (ingestGroup (some s) r0) rs from rfl, h, h2]
      · obtain ⟨r, hr, he⟩ := h
        exact Or.inr ⟨r, List.mem_cons_of_mem r0 hr,
          by rw [show sumsFrom s (r0 :: rs) =
            sumsFrom (ingestGroup (some s) r0) rs from rfl]; exact he⟩

/-- Cumulative diff of a cons changelog. -/
theorem cumDiff_cons (e : StatsEntry) (l : List StatsEntry) (a : AggregateRow) :
    cumDiff (e :: l) a = (if e.row = a then e.diff else 0) + cumDiff l a := by
  unfold cumDiff
  by_cases he : e.row = a
  · rw [List.filter_cons_of_pos (by simp [he]), List.map_cons, List.sum_cons,
      if_pos he]
  · rw [List.filter_cons_of_neg (by simp [he]), if_neg he, zero_add]

/-- Cumulative diff is additive over changelog concatenation. -/
theorem cumDiff_append (l1 l2 : List StatsEntry) (a : AggregateRow) :
    cumDiff (l1 ++ l2) a = cumDiff l1 a + cumDiff l2 a := by
  unfold cumDiff
  rw [List.filter_append, List.map_append, List.sum_append]

/-- The key of an aggregate row is the group it was computed for. -/
theorem aggOf_key (t : String) (s : SumState) : (aggOf t s).device_type = t :=
  rfl

/-- An update genuinely supersedes: the new aggregate row differs from the
old one, because the sample count strictly grows. -/
theorem aggOf_ne_succ (t : String) (s : SumState) (r : DeviceRow) :
    aggOf t s ≠ aggOf t (ingestGroup (some s) r) := by
  intro h
  have hc : (aggOf t s).total_samples =
      (aggOf t (ingestGroup (some s) r)).total_samples := by rw [h]
  have hc' : s.count = s.count + 1 := hc
  omega

/-- One update's changelog block moves the live indicator from the old
state to the new state. -/
theorem cumDiff_ingestLog (σ : StatsState) (r : DeviceRow) (a : AggregateRow) :
    cumDiff (ingestLog σ r) a =
      liveInd (ingestState σ r) a - liveInd σ a := by
  by_cases ha : a.device_type = r.device_type
  · have hσ' : ingestState σ r a.device_type =
        some (ingestGroup (σ r.device_type) r) := by
      show (if a.device_type = r.device_type then _ else _) = _
      rw [if_pos ha]
    cases hσ : σ r.device_type with
    | none =>
        have hlog : ingestLog σ r =
            [⟨aggOf r.device_type (ingestGroup none r), 1⟩] := by
          unfold ingestLog
          rw [hσ]
        have hnew : liveInd (ingestState σ r) a =
            if a = aggOf r.device_type (ingestGroup none r) then 1 else 0 := by
          unfold liveInd
          rw [hσ', hσ, ha]
        have hold : liveInd σ a = 0 := by
          unfold liveInd
          rw [ha, hσ]
        rw [hlog, cumDiff_cons, hnew, hold]
        show (if (aggOf r.device_type (ingestGroup none r)) = a then
          (1 : ℤ) else 0) + 0 = _
        by_cases he : a = aggOf r.device_type (ingestGroup none r)
        · rw [if_pos he.symm, if_pos he]; ring
        · rw [if_neg (fun h => he h.symm), if_neg he]; ring
    | some s =>
        have hlog : ingestLog σ r =
            [⟨aggOf r.device_type s, -1⟩,
             ⟨aggOf r.device_type (ingestGroup (some s) r), 1⟩] := by
          unfold ingestLog
          rw [hσ]
        have hnew : liveInd (ingestState σ r) a =
            if a = aggOf r.device_type (ingestGroup (some s) r) then 1 else 0 := by
          unfold liveInd
          rw [hσ', hσ, ha]
        have hold : liveInd σ a =
            if a = aggOf r.device_type s then 1 else 0 := by
          unfold liveInd
          rw [ha, hσ]
        rw [hlog, cumDiff_cons, cumDiff_cons, hnew, hold]
        have hne : aggOf r.device_type s ≠
            aggOf r.device_type (ingestGroup (some s) r) :=
          aggOf_ne_succ r.device_type s r
        show (if (aggOf r.device_type s) = a then (-1 : ℤ) else 0) +
          ((if (aggOf r.device_type (ingestGroup (some s) r)) = a then
            (1 : ℤ) else 0) + 0) = _
        by_cases h1 : a = aggOf r.device_type s <;>
          by_cases h2 : a = aggOf r.device_type (ingestGroup (some s) r) <;>
          simp [h1, h2, hne, eq_comm]
  · have hσ' : ingestState σ r a.device_type = σ a.device_type := by
      show (if a.device_type = r.device_type then _ else _) = _
      rw [if_neg ha]
    have hsame : liveInd (ingestState σ r) a = liveInd σ a := by
      unfold liveInd
      rw [hσ']
    have hzero : cumDiff (ingestLog σ r) a = 0 := by
      unfold ingestLog
      cases hσ : σ r.device_type with
      | none =>
          rw [cumDiff_cons]
          have : aggOf r.device_type (ingestGroup none r) ≠ a := fun h =>
            ha (by rw [← h, aggOf_key])
          rw [if_neg this]
          rfl
      | some s =>
          rw [cumDiff_cons, cumDiff_cons]
          have h1 : aggOf r.device_type s ≠ a := fun h =>
            ha (by rw [← h, aggOf_key])
          have h2 : aggOf r.device_type (ingestGroup (some s) r) ≠ a := fun h =>
            ha (by rw [← h, aggOf_key])
          rw [if_neg h1, if_neg h2]
          rfl
    rw [hzero, hsame]
    ring

/-- Over any run, the cumulative diff of a row equals the live indicator
of the final state minus that of the initial state. -/
theorem cumDiff_runStatsAux (rows : List DeviceRow) :
    ∀ (σ : StatsState) (a : AggregateRow),
      cumDiff (runStatsAux σ rows).2 a =
        liveInd (runStatsAux σ rows).1 a - liveInd σ a := by
  induction rows with
  | nil =>
      intro σ a
      show cumDiff [] a = liveInd σ a - liveInd σ a
      show (0 : ℤ) = _
      ring
  | cons r rs ih =>
      intro σ a
      show cumDiff (ingestLog σ r ++ (runStatsAux (ingestState σ r) rs).2) a =
        liveInd (runStatsAux (ingestState σ r) rs).1 a - liveInd σ a
      rw [cumDiff_append, cumDiff_ingestLog, ih]
      ring

/-- Replaying the full device_stats changelog reconstructs exactly the
live indicator of the final grouped state. -/
theorem cumDiff_device_stats (rows : List DeviceRow) (a : AggregateRow) :
    cumDiff (device_stats rows).2 a = liveInd (device_stats rows).1 a := by
  unfold device_stats
  rw [cumDiff_runStatsAux]
  have h0 : liveInd (fun _ => none) a = 0 := rfl
  rw [h0, sub_zero]

/-- A group's state is empty exactly when its type never occurred. -/
theorem device_stats_state_none_iff (rows : List DeviceRow) (t : String) :
    (device_stats rows).1 t = none ↔
      t ∉ rows.map (fun r => r.device_type) := by
  unfold device_stats
  rw [runStatsAux_state]
  constructor
  · intro h ht
    obtain ⟨r, hr, hrt⟩ := List.mem_map.mp ht
    cases htr : typeRows rows t with
    | nil =>
        have : r ∈ typeRows rows t :=
          List.mem_filter.mpr ⟨hr, by simp [hrt]⟩
        rw [htr] at this
        cases this
    | cons r0 l =>
        rw [htr, List.foldl_cons, foldl_ingestGroup_some] at h
        cases h
  · intro ht
    have htr : typeRows rows t = [] := by
      unfold typeRows
      rw [List.filter_eq_nil_iff]
      intro r hr
      simp only [decide_eq_true_eq]
      intro he
      exact ht (List.mem_map.mpr ⟨r, hr, he⟩)
    rw [htr]
    rfl

/-- A group state's aggregate row is live in the indicator sense. -/
theorem liveInd_some (σ : StatsState) (t : String) (s : SumState)
    (h : σ t = some s) : liveInd σ (aggOf t s) = 1 := by
  unfold liveInd
  simp [aggOf_key, h]

/-- A positive live indicator pins the row to its group's state. -/
theorem liveInd_pos (σ : StatsState) (a : AggregateRow)
    (h : liveInd σ a > 0) :
    ∃ s, σ a.device_type = some s ∧ a = aggOf a.device_type s := by
  unfold liveInd at h
  cases hσ : σ a.device_type with
  | none =>
      simp only [hσ] at h
      exact absurd h (lt_irrefl 0)
  | some s =>
      simp only [hσ] at h
      by_cases he : a = aggOf a.device_type s
      · exact ⟨s, rfl, he⟩
      · rw [if_neg he] at h
        exact absurd h (lt_irrefl 0)

/-- An empty group state has no live row. -/
theorem liveInd_none (σ : StatsState) (a : AggregateRow)
    (h : σ a.device_type = none) : liveInd σ a = 0 := by
  unfold liveInd
  simp [h]

/-- C2: after ingesting any device stream, the live AggregateRow of each
device_type that occurred carries the arithmetic mean of all that type's
current values as avg_current, the mean of its power values as avg_power,
their maximum as max_current, and the full count as total_samples — over
all history, with no windowing or eviction. -/
theorem device_stats_running_aggregate (rows : List DeviceRow) (t : String)
    (h : typeRows rows t ≠ []) :
    ∃ a : AggregateRow,
      cumDiff (device_stats rows).2 a > 0 ∧
      a.device_type = t ∧
      a.avg_current = ((typeRows rows t).map (fun r => r.current)).sum /
        ((typeRows rows t).length : ℚ) ∧
      a.avg_power = ((typeRows rows t).map (fun r => r.power)).sum /
        ((typeRows rows t).length : ℚ) ∧
      a.total_samples = (typeRows rows t).length ∧
      (∀ r ∈ typeRows rows t, r.current ≤ a.max_current) ∧
      (∃ r ∈ typeRows rows t, a.max_current = r.current) := by
  rcases htr : typeRows rows t with _ | ⟨r0, l⟩
  · exact absurd htr h
  · have hstate : (device_stats rows).1 t =
        some (sumsFrom (ingestGroup none r0) l) := by
      unfold device_stats
      rw [runStatsAux_state, htr, List.foldl_cons]
      exact foldl_ingestGroup_some l (ingestGroup none r0)
    have hcount : (sumsFrom (ingestGroup none r0) l).count = l.length + 1 := by
      rw [sumsFrom_count]
      show 1 + l.length = l.length + 1
      omega
    have hsumc : (sumsFrom (ingestGroup none r0) l).sum_current =
        r0.current + (l.map (fun r => r.current)).sum := by
      rw [sumsFrom_sum_current]
      rfl
    have hsump : (sumsFrom (ingestGroup none r0) l).sum_power =
        r0.power + (l.map (fun r => r.power)).sum := by
      rw [sumsFrom_sum_power]
      rfl
    refine ⟨aggOf t (sumsFrom (ingestGroup none r0) l), ?_, rfl, ?_, ?_, ?_,
      ?_, ?_⟩
    · rw [cumDiff_device_stats, liveInd_some _ t _ hstate]
      norm_num
    · show (sumsFrom (ingestGroup none r0) l).sum_current /
        (((sumsFrom (ingestGroup none r0) l).count : ℕ) : ℚ) = _
      rw [hsumc, hcount, List.map_cons, List.sum_cons, List.length_cons]
    · show (sumsFrom (ingestGroup none r0) l).sum_power /
        (((sumsFrom (ingestGroup none r0) l).count : ℕ) : ℚ) = _
      rw [hsump, hcount, List.map_cons, List.sum_cons, List.length_cons]
    · show (sumsFrom (ingestGroup none r0) l).count = _
      rw [hcount, List.length_cons]
    · intro r hr
      rcases List.mem_cons.mp hr with hm | hm
      · subst hm
        exact sumsFrom_max_init l (ingestGroup none r)
      · exact sumsFrom_max_ge l (ingestGroup none r0) r hm
    · rcases sumsFrom_max_mem l (ingestGroup none r0) with hm | ⟨r, hr, he⟩
      · exact ⟨r0, List.mem_cons_self r0 l, hm⟩
      · exact ⟨r, List.mem_cons_of_mem r0 hr, he⟩

/-- Witness for `device_stats_running_aggregate`: the two "hvac" rows of a
three-row stream yield a live aggregate with their mean, maximum and
count. -/
theorem device_stats_running_aggregate_witness :
    ∃ a : AggregateRow,
      cumDiff (device_stats [d15, dHigh, dh2]).2 a > 0 ∧
      a.device_type = "hvac" ∧
      a.avg_current =
        ((typeRows [d15, dHigh, dh2] "hvac").map (fun r => r.current)).sum /
          ((typeRows [d15, dHigh, dh2] "hvac").length : ℚ) ∧
      a.avg_power =
        ((typeRows [d15, dHigh, dh2] "hvac").map (fun r => r.power)).sum /
          ((typeRows [d15, dHigh, dh2] "hvac").length : ℚ) ∧
      a.total_samples = (typeRows [d15, dHigh, dh2] "hvac").length ∧
      (∀ r ∈ typeRows [d15, dHigh, dh2] "hvac", r.current ≤ a.max_current) ∧
      (∃ r ∈ typeRows [d15, dHigh, dh2] "hvac", a.max_current = r.current) :=
  device_stats_running_aggregate [d15, dHigh, dh2] "hvac" (by decide)

/-- C8: in the device_stats changelog there is at most one live row per
device_type: summing diff per row value, (i) two live rows of the same
type coincide, (ii) a type that occurred in the stream has exactly one
live row, and (iii) a type that never occurred has none.  Each update was
emitted as a retraction of the superseded row followed by an insertion of
the new row (insertion-only for a type's first row), as modelled by
`ingestLog`. -/
theorem device_stats_one_live_row (rows : List DeviceRow) (t : String) :
    (∀ a b : AggregateRow,
       cumDiff (device_stats rows).2 a > 0 →
       cumDiff (device_stats rows).2 b > 0 →
       a.device_type = t → b.device_type = t → a = b) ∧
    (t ∈ rows.map (fun r => r.device_type) →
       ∃ a : AggregateRow,
         cumDiff (device_stats rows).2 a > 0 ∧ a.device_type = t) ∧
    (t ∉ rows.map (fun r => r.device_type) →
       ∀ a : AggregateRow, a.device_type = t →
         cumDiff (device_stats rows).2 a = 0) := by
  refine ⟨fun a b ha hb hat hbt => ?_, fun ht => ?_, fun ht a hat => ?_⟩
  · rw [cumDiff_device_stats] at ha hb
    obtain ⟨s, hs, hae⟩ := liveInd_pos _ a ha
    obtain ⟨s', hs', hbe⟩ := liveInd_pos _ b hb
    rw [hat] at hs hae
    rw [hbt] at hs' hbe
    rw [hs] at hs'
    cases hs'
    rw [hae, hbe]
  · have hne : (device_stats rows).1 t ≠ none := by
      intro hn
      exact (device_stats_state_none_iff rows t).mp hn ht
    cases hs : (device_stats rows).1 t with
    | none => exact absurd hs hne
    | some s =>
        refine ⟨aggOf t s, ?_, rfl⟩
        rw [cumDiff_device_stats, liveInd_some _ t s hs]
        norm_num
  · rw [cumDiff_device_stats]
    refine liveInd_none _ a ?_
    rw [hat]
    exact (device_stats_state_none_iff rows t).mpr ht

/-- Witness for `device_stats_one_live_row`: in a three-row stream the
type "pump" has a live aggregate row after replay. -/
theorem device_stats_one_live_row_witness :
    ∃ a : AggregateRow,
      cumDiff (device_stats [d15, dHigh, dh2]).2 a > 0 ∧
      a.device_type = "pump" :=
  (device_stats_one_live_row [d15, dHigh, dh2] "pump").2.1 (by decide)

/-- C5: before any GridRow has arrived, every enriched row carries the
defaults carbon_intensity = 500, carbon_level = "MEDIUM",
electricity_price = 0.15, pricing_tier = "MEDIUM", renewable_pct = 35 and
cost_per_hour = round(power / 1000 * 0.15, 4); in particular a device row
with power = 800 yields cost_per_hour = 0.12. -/
theorem enrich_defaults :
    (∀ d : DeviceRow,
      (enrich [] d).carbon_intensity = 500 ∧
      (enrich [] d).carbon_level = "MEDIUM" ∧
      (enrich [] d).electricity_price = 0.15 ∧
      (enrich [] d).pricing_tier = "MEDIUM" ∧
      (enrich [] d).renewable_pct = 35 ∧
      (enrich [] d).cost_per_hour = round4 (d.power / 1000 * 0.15)) ∧
    (enrich [] d15).cost_per_hour = 0.12 := by
  refine ⟨fun _ => ⟨rfl, rfl, rfl, rfl, rfl, rfl⟩, ?_⟩
  show round4 (d15.power / 1000 * 0.15) = 0.12
  unfold round4
  have h1 : d15.power / 1000 * 0.15 * 10000 = ((1200 : ℤ) : ℚ) := by
    show (800 : ℚ) / 1000 * 0.15 * 10000 = ((1200 : ℤ) : ℚ)
    norm_num
  rw [h1, roundHalfEven_intCast]
  norm_num

/-- C7 counterexample: a device poll whose second entry is missing its
required `current` field still emits the first entry's row — the failed
poll's records are not skipped as a whole, contrary to the claim. -/
theorem poll_coercion_keeps_earlier_rows :
    internal_stream [(0, Except.ok snapMixed)] =
      [{ device_id := "d1", device_type := "hvac", status := "running"
         voltage := 230, current := 4, power := 800, timestamp := 5 }] ∧
    internal_stream [(0, Except.ok snapMixed)] ≠ [] :=
  ⟨rfl, fun h => List.cons_ne_nil _ _ h⟩

/-- C7 (amended): a failed fetch (network error, timeout, non-success
status, malformed payload) skips the whole poll, for either adapter; a
field-coercion failure skips the grid adapter's single record; in the
device adapter a field-coercion failure skips the failing entry and the
remainder of that poll, while entries already yielded earlier in the same
poll are kept; in every case the stream continues with the rows of all
subsequent polls — no single failed poll terminates either generator. -/
theorem adapter_failure_isolation
    (ps qs : List (ℚ × Except Unit Snapshot)) (n : ℚ)
    (p : ℚ × Except Unit Snapshot)
    (gps gqs : List (Except Unit GridPayload)) (gp : GridPayload)
    (ts : ℚ) (good : List (String × TelemetryEntry))
    (id : String) (bad : TelemetryEntry)
    (rest : List (String × TelemetryEntry)) :
    (internal_stream (ps ++ (n, Except.error ()) :: qs) =
       internal_stream ps ++ internal_stream qs) ∧
    (external_stream (gps ++ Except.error () :: gqs) =
       external_stream gps ++ external_stream gqs) ∧
    (gp.last_updated = none →
       external_stream (gps ++ Except.ok gp :: gqs) =
         external_stream gps ++ external_stream gqs) ∧
    ((∀ pr ∈ good, (coerceEntry pr.1 ts pr.2).isSome) →
       coerceEntry id ts bad = none →
       emitEntries ts (good ++ (id, bad) :: rest) = emitEntries ts good) ∧
    (internal_stream (ps ++ p :: qs) =
       internal_stream ps ++ pollDeviceRows p.1 p.2 ++ internal_stream qs) := by
  refine ⟨?_, ?_, ?_, ?_, ?_⟩
  · unfold internal_stream
    rw [List.flatMap_append, List.flatMap_cons]
    rw [show pollDeviceRows n (Except.error ()) = [] from rfl,
      List.nil_append]
  · unfold external_stream
    rw [List.flatMap_append, List.flatMap_cons]
    rw [show pollGridRows (Except.error ()) = [] from rfl, List.nil_append]
  · intro hlu
    have hnil : pollGridRows (Except.ok gp) = [] := by
      rcases gp with ⟨ci, cl, ep, pt, rp, lu⟩
      have hlu' : lu = none := hlu
      subst hlu'
      cases ci <;> cases cl <;> cases ep <;> cases pt <;> cases rp <;> rfl
    unfold external_stream
    rw [List.flatMap_append, List.flatMap_cons, hnil, List.nil_append]
  · intro hall hbad
    induction good with
    | nil =>
        show emitEntries ts ((id, bad) :: rest) = emitEntries ts []
        unfold emitEntries
        rw [hbad]
    | cons pr prs ih =>
        obtain ⟨pid, pe⟩ := pr
        have hsome := hall (pid, pe) (List.mem_cons_self _ _)
        cases hc : coerceEntry pid ts pe with
        | none =>
            rw [hc] at hsome
            simp at hsome
        | some row =>
            show emitEntries ts ((pid, pe) :: (prs ++ (id, bad) :: rest)) =
              emitEntries ts ((pid, pe) :: prs)
            unfold emitEntries
            rw [hc, ih (fun q hq => hall q (List.mem_cons_of_mem _ hq))]
  · unfold internal_stream
    rw [List.flatMap_append, List.flatMap_cons, List.append_assoc]

/-- Witness for `adapter_failure_isolation`: a concrete device poll with a
good entry followed by an uncoercible one keeps exactly the good entry's
row. -/
theorem adapter_failure_isolation_witness :
    emitEntries 5 ([("d1", goodEntry)] ++ ("d2", badEntry) :: []) =
      emitEntries 5 [("d1", goodEntry)] :=
  (adapter_failure_isolation [] [] 0 (0, Except.error ()) [] []
    { carbon_intensity := none, carbon_level := none
      electricity_price := none, pricing_tier := none
      grid_renewable_percentage := none, last_updated := none }
    5 [("d1", goodEntry)] "d2" badEntry []).2.2.2.1
    (by decide) (by decide)

/-- C9 counterexample: an entry carrying its own timestamp 99 inside a
snapshot stamped 5 is emitted with timestamp 5 — the entry's own
timestamp is never used, contrary to the claim. -/
theorem entry_timestamp_ignored :
    (pollDeviceRows 0 (Except.ok snapOwnTs)).map (fun r => r.timestamp) =
      [5] ∧
    ownTsEntry.extra_timestamp = some 99 ∧ (5 : ℚ) ≠ 99 := by
  refine ⟨rfl, rfl, ?_⟩
  norm_num

/-- C9 (amended): each device poll emits one DeviceRow per telemetry entry
provided every entry coerces (a failing entry truncates the poll, see C7),
and every emitted DeviceRow carries the snapshot timestamp — falling back
to the poll's wall-clock time when the snapshot has none — never a
per-entry timestamp. -/
theorem device_poll_snapshot_timestamp (now : ℚ) (snap : Snapshot)
    (hall : ∀ pr ∈ snap.devices,
      (coerceEntry pr.1 (snap.timestamp.getD now) pr.2).isSome) :
    (pollDeviceRows now (Except.ok snap)).length = snap.devices.length ∧
    ∀ r ∈ pollDeviceRows now (Except.ok snap),
      r.timestamp = snap.timestamp.getD now := by
  have hlen : ∀ (l : List (String × TelemetryEntry)) (ts : ℚ),
      (∀ pr ∈ l, (coerceEntry pr.1 ts pr.2).isSome) →
      (emitEntries ts l).length = l.length := by
    intro l
    induction l with
    | nil => intro ts _; rfl
    | cons pr prs ih =>
        intro ts hall'
        obtain ⟨pid, pe⟩ := pr
        have hsome := hall' (pid, pe) (List.mem_cons_self _ _)
        cases hc : coerceEntry pid ts pe with
        | none =>
            rw [hc] at hsome
            simp at hsome
        | some row =>
            show (emitEntries ts ((pid, pe) :: prs)).length = prs.length + 1
            unfold emitEntries
            rw [hc]
            show (emitEntries ts prs).length + 1 = prs.length + 1
            rw [ih ts (fun q hq => hall' q (List.mem_cons_of_mem _ hq))]
  have hts : ∀ (l : List (String × TelemetryEntry)) (ts : ℚ),
      ∀ r ∈ emitEntries ts l, r.timestamp = ts := by
    intro l
    induction l with
    | nil => intro ts r hr; cases hr
    | cons pr prs ih =>
        intro ts r hr
        obtain ⟨pid, pe⟩ := pr
        revert hr
        show r ∈ (match coerceEntry pid ts pe with
          | some row => row :: emitEntries ts prs
          | none => []) → r.timestamp = ts
        cases hc : coerceEntry pid ts pe with
        | none => intro hr; cases hr
        | some row =>
            intro hr
            rcases List.mem_cons.mp hr with hm | hm
            · subst hm
              rcases pe with ⟨dt, st, v, c, pw, et⟩
              cases dt <;> cases st <;> cases v <;> cases c <;> cases pw <;>
                cases hc <;> rfl
            · exact ih ts r hm
  exact ⟨hlen snap.devices (snap.timestamp.getD now) hall,
    hts snap.devices (snap.timestamp.getD now)⟩

/-- Witness for `device_poll_snapshot_timestamp`: the single-entry
snapshot stamped 5 emits one row, stamped 5. -/
theorem device_poll_snapshot_timestamp_witness :
    (pollDeviceRows 0 (Except.ok snapOwnTs)).length =
      snapOwnTs.devices.length ∧
    ∀ r ∈ pollDeviceRows 0 (Except.ok snapOwnTs),
      r.timestamp = snapOwnTs.timestamp.getD 0 :=
  device_poll_snapshot_timestamp 0 snapOwnTs (by decide)

end GridSense
